import Mathlib

/-!
Verification of `script/imageResize.py`.

The script is five lines of glue over the external image library PIL
(`from PIL import Image`): `ResizeImage` opens an input file, resizes the
decoded bitmap to an explicit `(width, height)` with the `Image.ANTIALIAS`
filter, and saves the result to an output path, plus a direct-execution
block with hard-coded arguments.

The embedding models the filesystem explicitly (a set of existing
directories and an association list of files) and models the external
library's decode / resize / encode pipeline symbolically at the interface
level the script relies on: decoding succeeds exactly on image files,
resizing validates that both target dimensions are positive (PIL raises
`ValueError` from the C layer otherwise) and otherwise produces a bitmap of
exactly the requested size carrying the resampling filter in its pixel
data, and saving infers the output format from the file extension and
requires the output's parent directory to exist.
-/

/-- The resampling filters of the external image library that the script can
name; the script passes `Image.ANTIALIAS` (line 13). -/
inductive ResampleFilter where
| nearest : ResampleFilter
| bilinear : ResampleFilter
| bicubic : ResampleFilter
| antialias : ResampleFilter
deriving DecidableEq, Repr

/-- Pixel data of an in-memory bitmap. The external library's concrete
convolution arithmetic is not reimplemented; resampled data is kept
symbolically as a constructor recording the filter, the target size and the
source data, which is enough to distinguish distinct pixel contents and to
settle the claims (which concern dimensions, filter choice and
determinism, not the numeric values of resampled pixels). -/
inductive PixelData where
| source : List (List Nat) → PixelData
| resampled : ResampleFilter → Nat → Nat → PixelData → PixelData
deriving DecidableEq, Repr

/-- An in-memory decoded bitmap: pixel dimensions and pixel data. -/
structure Bitmap where
width : Nat
height : Nat
data : PixelData
deriving DecidableEq, Repr

/-- Content of a file on disk: either an encoded raster image (decodable)
or arbitrary non-image bytes (not decodable). -/
inductive FileContent where
| image : Bitmap → FileContent
| raw : List Nat → FileContent
deriving DecidableEq, Repr

/-- The filesystem: the set of existing directories and the files, as an
association list from path to content (most recent write first). -/
structure FS where
dirs : List String
files : List (String × FileContent)
deriving DecidableEq, Repr

/-- Look a file up by path (first match wins, i.e. the most recent write). -/
def fsLookup (fs : FS) (p : String) : Option FileContent :=
go fs.files
where go : List (String × FileContent) → Option FileContent
| [] => none
| (q, c) :: rest => if q = p then some c else go rest

/-- Write (create or overwrite) the file at path `p`. -/
def fsWrite (fs : FS) (p : String) (c : FileContent) : FS :=
⟨fs.dirs, (p, c) :: fs.files⟩

/-- The parent directory of a path: everything before its last `/`
separator, with trailing separators stripped; the empty string (the
current directory) when there is no separator. This is the semantics of
Python's `os.path.dirname` on the relative paths the script uses. -/
def parentDir (p : String) : String :=
⟨((p.data.reverse.dropWhile (fun c => c ≠ '/')).dropWhile
  (fun c => c = '/')).reverse⟩

/-- The extension of a path: the part of the last path segment after its
last dot, the empty string when the segment has no dot. This is the
semantics of Python's `os.path.splitext` on the paths the script uses
(without the leading dot). -/
def extension (p : String) : String :=
if (p.data.reverse.takeWhile (fun c => c ≠ '/')).dropWhile
    (fun c => c ≠ '.') = [] then ""
else ⟨((p.data.reverse.takeWhile (fun c => c ≠ '/')).takeWhile
  (fun c => c ≠ '.')).reverse⟩

/-- ASCII lower-casing of one character, as Python's `str.lower` acts on
the extensions the external library recognizes. -/
def charLower (c : Char) : Char :=
if 'A' ≤ c ∧ c ≤ 'Z' then Char.ofNat (c.toNat + 32) else c

/-- ASCII lower-casing of a string (Python's `str.lower` applied by the
external library to the inferred extension before the format lookup). -/
def strLower (s : String) : String :=
⟨s.data.map charLower⟩

/-- The output formats the external library can encode by extension
(PIL's save-by-extension registry restricted to common raster formats;
the reference usage is JPEG). -/
def supportedExt : List String :=
["jpg", "jpeg", "png", "bmp", "gif", "tiff", "webp"]

/-- The error kinds the operation can surface: `decodeError` for a
missing, unreadable or undecodable input (PIL's `FileNotFoundError` /
`UnidentifiedImageError`), `invalidDimensions` for a non-positive target
width or height (PIL's `ValueError` raised by `resize`), `encodeError` for
an unwritable output location or unsupported output extension (PIL's
`OSError` / `ValueError` raised by `save`). -/
inductive Err where
| decodeError : String → Err
| invalidDimensions : Int → Int → Err
| encodeError : String → Err
deriving DecidableEq, Repr

/-- `Image.open(filein)`: succeeds exactly when a file exists at the path
and its content decodes as an image. -/
def imageOpen (fs : FS) (p : String) : Except Err Bitmap :=
match fsLookup fs p with
| none => .error (.decodeError p)
| some (.raw _) => .error (.decodeError p)
| some (.image bm) => .ok bm

/-- `img.resize((width, height), filter)`: fails when either target
dimension is non-positive (PIL's C layer raises
`ValueError: height and width must be > 0`), otherwise produces a bitmap
of exactly the requested dimensions whose data is the source data
resampled with the given filter. -/
def imageResize (bm : Bitmap) (width height : Int) (f : ResampleFilter) :
    Except Err Bitmap :=
if width ≤ 0 ∨ height ≤ 0 then .error (.invalidDimensions width height)
else .ok ⟨width.toNat, height.toNat,
  .resampled f width.toNat height.toNat bm.data⟩

/-- `out.save(fileout)`: infers the output format from the path's
extension (lower-cased, as PIL does) and requires the parent directory to
exist; both checks precede any write, so a failing save leaves the
filesystem untouched. On success the encoded image is written at the
path. -/
def imageSave (fs : FS) (bm : Bitmap) (p : String) : Except Err FS :=
if strLower (extension p) ∈ supportedExt then
  if parentDir p ∈ fs.dirs then .ok (fsWrite fs p (.image bm))
  else .error (.encodeError p)
else .error (.encodeError p)

/-- `ResizeImage(filein, fileout, width, height)` (lines 11-15 of the
script): open the input, resize to `(width, height)` with
`Image.ANTIALIAS`, save to the output path. The steps run in this order
and any step's failure (a raised exception in Python) aborts the call
immediately and propagates. -/
def ResizeImage (fs : FS) (filein fileout : String) (width height : Int) :
    Except Err FS :=
match imageOpen fs filein with
| .error e => .error e
| .ok img =>
  match imageResize img width height ResampleFilter.antialias with
  | .error e => .error e
  | .ok out => imageSave fs out fileout

/-- The observable outcome of a call: the final filesystem (unchanged when
any step fails, since the only write is the last step of a successful
call) and the error, if any. -/
def runResize (fs : FS) (filein fileout : String) (width height : Int) :
    FS × Option Err :=
match ResizeImage fs filein fileout width height with
| .ok fs' => (fs', none)
| .error e => (fs, some e)

/-- The hard-coded input path of the direct-execution block (line 18). -/
def mainFilein : String := "../assets//resized//prof_pic_yh.jpeg"

/-- The hard-coded output path of the direct-execution block (line 19). -/
def mainFileout : String := "../assets//resized//prof_pic-480x659.jpeg"

/-- The hard-coded target width of the direct-execution block (line 20). -/
def mainWidth : Int := 480

/-- The hard-coded target height of the direct-execution block (line 21). -/
def mainHeight : Int := 659

/-- The direct-execution block (`if __name__ == "__main__":`, lines
17-22): bind the four literals and call `ResizeImage` once. -/
def scriptMain (fs : FS) : Except Err FS :=
ResizeImage fs mainFilein mainFileout mainWidth mainHeight

/-- A file-handle event: acquisition or release of the handle on the file
at a path. -/
inductive HEvent where
| acq : String → HEvent
| rel : String → HEvent
deriving DecidableEq, Repr

/-- The file-handle events of one `ResizeImage` call, following the
branch structure of the pipeline and the external library's handle
discipline: `Image.open` acquires the input handle (a failing underlying
open acquires nothing, and the library closes the handle of an
unidentifiable file before raising); the full decode performed inside
`resize` releases the input handle on both the success and the
invalid-dimension paths; `save` runs its extension and directory checks
before acquiring the output handle, and releases it when the write
completes. -/
def resizeEvents (fs : FS) (filein fileout : String) (width height : Int) :
    List HEvent :=
match fsLookup fs filein with
| none => []
| some (.raw _) => [.acq filein, .rel filein]
| some (.image _) =>
  if width ≤ 0 ∨ height ≤ 0 then [.acq filein, .rel filein]
  else if strLower (extension fileout) ∈ supportedExt then
    if parentDir fileout ∈ fs.dirs then
      [.acq filein, .rel filein, .acq fileout, .rel fileout]
    else [.acq filein, .rel filein]
  else [.acq filein, .rel filein]

/-- A 1200 × 1650 decodable sample image (the spec's concrete scenario
dimensions). -/
def sampleBitmap : Bitmap :=
⟨1200, 1650, .source [[7, 7], [7, 7]]⟩

/-- A sample filesystem: the current directory and an `out` directory
exist; a decodable JPEG sits at `in.jpeg` and non-image bytes at
`junk.txt`. -/
def sampleFS : FS :=
⟨["", "out"], [("in.jpeg", .image sampleBitmap), ("junk.txt", .raw [0, 1])]⟩

/-- Looking up the path just written returns the written content. -/
theorem fsLookup_write_self (fs : FS) (p : String) (c : FileContent) :
    fsLookup (fsWrite fs p c) p = some c := by
simp [fsLookup, fsWrite, fsLookup.go]

/-- Writing one path leaves the lookup of any other path unchanged. -/
theorem fsLookup_write_other (fs : FS) (p q : String) (c : FileContent)
    (h : q ≠ p) : fsLookup (fsWrite fs p c) q = fsLookup fs q := by
simp [fsLookup, fsWrite, fsLookup.go, Ne.symm h]

/-- Evaluation of a fully successful call: decodable input, positive
target dimensions, supported output extension, existing output directory.
The result writes exactly one file: the antialias-resampled
`width × height` image at `fileout`. -/
theorem ResizeImage_ok_of (fs : FS) (filein fileout : String)
    (width height : Int) (bm : Bitmap)
    (hfile : fsLookup fs filein = some (.image bm))
    (hw : 0 < width) (hh : 0 < height)
    (hext : strLower (extension fileout) ∈ supportedExt)
    (hdir : parentDir fileout ∈ fs.dirs) :
    ResizeImage fs filein fileout width height =
      .ok (fsWrite fs fileout (.image
        ⟨width.toNat, height.toNat,
          .resampled .antialias width.toNat height.toNat bm.data⟩)) := by
have hcond : ¬(width ≤ 0 ∨ height ≤ 0) := by omega
simp [ResizeImage, imageOpen, hfile, imageResize, hcond, imageSave, hext,
  hdir]

/-- `Image.open` succeeds exactly on an image file at the path. -/
theorem imageOpen_ok_iff (fs : FS) (p : String) (bm : Bitmap) :
    imageOpen fs p = .ok bm ↔ fsLookup fs p = some (.image bm) := by
unfold imageOpen
cases h : fsLookup fs p with
| none => simp
| some c => cases c with
  | image b => simp
  | raw bs => simp

/-- A successful call's final filesystem is the initial one with exactly
one file written: the antialias-resampled image of the decoded input, at
`fileout`. -/
theorem ResizeImage_ok_inv (fs fs' : FS) (filein fileout : String)
    (width height : Int)
    (h : ResizeImage fs filein fileout width height = .ok fs') :
    ∃ bm, fsLookup fs filein = some (.image bm) ∧
      fs' = fsWrite fs fileout (.image
        ⟨width.toNat, height.toNat,
          .resampled .antialias width.toNat height.toNat bm.data⟩) := by
unfold ResizeImage at h
split at h
· exact absurd h (by simp)
· rename_i img heq
  split at h
  · exact absurd h (by simp)
  · rename_i out heq2
    unfold imageSave at h
    split at h
    · split at h
      · refine ⟨img, (imageOpen_ok_iff fs filein img).mp heq, ?_⟩
        unfold imageResize at heq2
        split at heq2
        · exact absurd heq2 (by simp)
        · injection heq2 with heq2
          injection h with h
          rw [← h, ← heq2]
      · exact absurd h (by simp)
    · exact absurd h (by simp)

/-- C1: for every readable, decodable input image and every positive pair
`(width, height)` (with the contract's writable output location: supported
extension and existing parent directory), `ResizeImage` succeeds and the
output file decodes to pixel dimensions exactly `(width, height)`. -/
theorem resizeImage_output_dims (fs : FS) (filein fileout : String)
    (width height : Int) (bm : Bitmap)
    (hfile : fsLookup fs filein = some (.image bm))
    (hw : 0 < width) (hh : 0 < height)
    (hext : strLower (extension fileout) ∈ supportedExt)
    (hdir : parentDir fileout ∈ fs.dirs) :
    ∃ fs' bm', ResizeImage fs filein fileout width height = .ok fs' ∧
      fsLookup fs' fileout = some (.image bm') ∧
      (bm'.width : Int) = width ∧ (bm'.height : Int) = height := by
refine ⟨_, ⟨width.toNat, height.toNat,
  .resampled .antialias width.toNat height.toNat bm.data⟩,
  ResizeImage_ok_of fs filein fileout width height bm hfile hw hh hext hdir,
  fsLookup_write_self _ _ _, ?_, ?_⟩
· simp [Int.toNat_of_nonneg (le_of_lt hw)]
· simp [Int.toNat_of_nonneg (le_of_lt hh)]

/-- Witness for C1 at the spec's concrete scenario: a 1200 × 1650 JPEG
resized to 480 × 659. -/
theorem resizeImage_output_dims_witness :
    ∃ fs' bm', ResizeImage sampleFS "in.jpeg" "out/o.jpeg" 480 659 =
        .ok fs' ∧
      fsLookup fs' "out/o.jpeg" = some (.image bm') ∧
      (bm'.width : Int) = 480 ∧ (bm'.height : Int) = 659 :=
resizeImage_output_dims sampleFS "in.jpeg" "out/o.jpeg" 480 659 sampleBitmap
  (by decide) (by decide) (by decide) (by decide) (by decide)

/-- C5: the resize step produces a bitmap of exactly `width × height`
pixels resampled with the `ANTIALIAS` filter — a smooth filter distinct
from nearest-neighbor — and the target box never depends on the source
bitmap's dimensions (no aspect-ratio preservation: any decodable source is
stretched or shrunk to exactly the requested box). -/
theorem resizeImage_antialias_exact_box (fs : FS) (filein fileout : String)
    (width height : Int) (bm : Bitmap)
    (hfile : fsLookup fs filein = some (.image bm))
    (hw : 0 < width) (hh : 0 < height)
    (hext : strLower (extension fileout) ∈ supportedExt)
    (hdir : parentDir fileout ∈ fs.dirs) :
    ∃ fs', ResizeImage fs filein fileout width height = .ok fs' ∧
      fsLookup fs' fileout = some (.image
        ⟨width.toNat, height.toNat,
          .resampled .antialias width.toNat height.toNat bm.data⟩) ∧
      ResampleFilter.antialias ≠ ResampleFilter.nearest :=
⟨_, ResizeImage_ok_of fs filein fileout width height bm hfile hw hh hext
  hdir, fsLookup_write_self _ _ _, by decide⟩

/-- Witness for C5: the sample 1200 × 1650 image is stretched to exactly
480 × 659 with the antialias filter. -/
theorem resizeImage_antialias_exact_box_witness :
    ∃ fs', ResizeImage sampleFS "in.jpeg" "out/o.jpeg" 480 659 = .ok fs' ∧
      fsLookup fs' "out/o.jpeg" = some (.image
        ⟨480, 659, .resampled .antialias 480 659 sampleBitmap.data⟩) ∧
      ResampleFilter.antialias ≠ ResampleFilter.nearest :=
resizeImage_antialias_exact_box sampleFS "in.jpeg" "out/o.jpeg" 480 659
  sampleBitmap (by decide) (by decide) (by decide) (by decide) (by decide)

/-- C8: the direct-execution block is exactly one `ResizeImage` call with
the literal hard-coded arguments: input path
`../assets//resized//prof_pic_yh.jpeg`, output path
`../assets//resized//prof_pic-480x659.jpeg`, `width = 480`,
`height = 659`; it performs no other filesystem work. -/
theorem scriptMain_hardcoded_call (fs : FS) :
    scriptMain fs =
      ResizeImage fs "../assets//resized//prof_pic_yh.jpeg"
        "../assets//resized//prof_pic-480x659.jpeg" 480 659 ∧
    mainWidth = 480 ∧ mainHeight = 659 :=
⟨rfl, rfl, rfl⟩

/-- Counterexample to C2 as stated: when the input file is missing and the
width is non-positive, the call fails with `decodeError`, not
`invalidDimensions`, because `Image.open` runs before `resize` and its
failure propagates first. -/
theorem resizeImage_nonpositive_counterexample :
    runResize ⟨[""], []⟩ "missing.jpeg" "out.jpeg" 0 659 =
      (⟨[""], []⟩, some (.decodeError "missing.jpeg")) ∧
    some (Err.decodeError "missing.jpeg") ≠
      some (Err.invalidDimensions 0 659) :=
⟨rfl, by decide⟩

/-- C2 (amended): for every call with `width ≤ 0` or `height ≤ 0` whose
input file opens and decodes successfully, the operation fails with
`invalidDimensions` and writes no output file (the filesystem is
unchanged). When the input does not decode, the call still fails with no
output, but with `decodeError`, since the decode step runs first. -/
theorem resizeImage_nonpositive_invalidDimensions (fs : FS)
    (filein fileout : String) (width height : Int) (bm : Bitmap)
    (hfile : fsLookup fs filein = some (.image bm))
    (hwh : width ≤ 0 ∨ height ≤ 0) :
    runResize fs filein fileout width height =
      (fs, some (.invalidDimensions width height)) := by
unfold runResize ResizeImage imageOpen imageResize
simp [hfile, hwh]

/-- Witness for the amended C2: a decodable input with `width = 0`. -/
theorem resizeImage_nonpositive_invalidDimensions_witness :
    runResize sampleFS "in.jpeg" "out/o.jpeg" 0 659 =
      (sampleFS, some (.invalidDimensions 0 659)) :=
resizeImage_nonpositive_invalidDimensions sampleFS "in.jpeg" "out/o.jpeg"
  0 659 sampleBitmap (by decide) (by decide)

/-- C3: whenever no decodable file is at `filein` (missing, or present but
not a decodable image), the call fails with `decodeError` naming the input
path and writes no output file (the filesystem is unchanged), whatever the
requested dimensions and output path. -/
theorem resizeImage_undecodable_decodeError (fs : FS)
    (filein fileout : String) (width height : Int)
    (hin : fsLookup fs filein = none ∨
      ∃ bs, fsLookup fs filein = some (.raw bs)) :
    runResize fs filein fileout width height =
      (fs, some (.decodeError filein)) := by
unfold runResize ResizeImage imageOpen
rcases hin with h | ⟨bs, h⟩ <;> rw [h]

/-- Witness for C3: a file of non-image bytes at the input path. -/
theorem resizeImage_undecodable_decodeError_witness :
    runResize sampleFS "junk.txt" "out/o.jpeg" 480 659 =
      (sampleFS, some (.decodeError "junk.txt")) :=
resizeImage_undecodable_decodeError sampleFS "junk.txt" "out/o.jpeg" 480
  659 (.inr ⟨[0, 1], by decide⟩)

/-- C4: every call is atomic with respect to the output file: either it
fails and the filesystem is exactly the initial one (no partial output
exists), or it succeeds, its only write is the complete resized image file
at `fileout`, and that file is present in the final filesystem. -/
theorem resizeImage_atomic (fs : FS) (filein fileout : String)
    (width height : Int) :
    (∃ e, runResize fs filein fileout width height = (fs, some e)) ∨
    (∃ bm, runResize fs filein fileout width height =
        (fsWrite fs fileout (.image bm), none) ∧
      fsLookup (fsWrite fs fileout (.image bm)) fileout =
        some (.image bm)) := by
unfold runResize
cases h : ResizeImage fs filein fileout width height with
| error e => exact .inl ⟨e, rfl⟩
| ok fs' =>
  obtain ⟨bm, -, rfl⟩ :=
    ResizeImage_ok_inv fs fs' filein fileout width height h
  exact .inr ⟨_, rfl, fsLookup_write_self _ _ _⟩

/-- C6: determinism. Two successful calls whose input files hold the same
content, resizing to the same `(width, height)`, write output files with
identical content — hence identical pixel dimensions and identical
resampled pixel data — whatever the filesystems and paths involved. -/
theorem resizeImage_deterministic (fs1 fs2 g1 g2 : FS)
    (fi1 fi2 fo1 fo2 : String) (width height : Int)
    (hin : fsLookup fs1 fi1 = fsLookup fs2 fi2)
    (h1 : ResizeImage fs1 fi1 fo1 width height = .ok g1)
    (h2 : ResizeImage fs2 fi2 fo2 width height = .ok g2) :
    fsLookup g1 fo1 = fsLookup g2 fo2 := by
obtain ⟨bm1, hl1, rfl⟩ :=
  ResizeImage_ok_inv fs1 g1 fi1 fo1 width height h1
obtain ⟨bm2, hl2, rfl⟩ :=
  ResizeImage_ok_inv fs2 g2 fi2 fo2 width height h2
rw [hl1, hl2] at hin
injection hin with hin
injection hin with hin
rw [fsLookup_write_self, fsLookup_write_self, hin]

/-- Witness for C6: the same input content written through two different
output paths yields the same output content. -/
theorem resizeImage_deterministic_witness :
    fsLookup (fsWrite sampleFS "out/o.jpeg" (.image ⟨480, 659,
        .resampled .antialias 480 659 sampleBitmap.data⟩)) "out/o.jpeg" =
      fsLookup (fsWrite sampleFS "out/p.png" (.image ⟨480, 659,
        .resampled .antialias 480 659 sampleBitmap.data⟩)) "out/p.png" :=
resizeImage_deterministic sampleFS sampleFS _ _ "in.jpeg" "in.jpeg"
  "out/o.jpeg" "out/p.png" 480 659 rfl
  (ResizeImage_ok_of sampleFS "in.jpeg" "out/o.jpeg" 480 659 sampleBitmap
    (by decide) (by decide) (by decide) (by decide) (by decide))
  (ResizeImage_ok_of sampleFS "in.jpeg" "out/p.png" 480 659 sampleBitmap
    (by decide) (by decide) (by decide) (by decide) (by decide))

/-- A filesystem whose only file is a decodable 2 × 2 image at `a.jpeg` in
the current directory. -/
def aliasFS : FS :=
⟨[""], [("a.jpeg", .image ⟨2, 2, .source [[1, 2], [3, 4]]⟩)]⟩

/-- Counterexample to C7 as stated: calling with `fileout = filein` on a
decodable input succeeds and changes the content stored at the input path,
so the input file is not "never modified". -/
theorem resizeImage_input_mutation_counterexample :
    (runResize aliasFS "a.jpeg" "a.jpeg" 1 1).2 = none ∧
    fsLookup (runResize aliasFS "a.jpeg" "a.jpeg" 1 1).1 "a.jpeg" ≠
      fsLookup aliasFS "a.jpeg" := by
decide

/-- C7 (amended): the input file is unmodified by every call with
`fileout ≠ filein`, and by every failing call (in particular a call
failing with `encodeError` because the output directory does not exist);
only a successful call with `fileout = filein` can change it. -/
theorem resizeImage_input_preserved (fs : FS) (filein fileout : String)
    (width height : Int)
    (h : fileout ≠ filein ∨
      (runResize fs filein fileout width height).2 ≠ none) :
    fsLookup (runResize fs filein fileout width height).1 filein =
      fsLookup fs filein := by
unfold runResize at h ⊢
cases hr : ResizeImage fs filein fileout width height with
| error e => rfl
| ok fs' =>
  obtain ⟨bm, -, rfl⟩ :=
    ResizeImage_ok_inv fs fs' filein fileout width height hr
  rw [hr] at h
  cases h with
  | inl hne => exact fsLookup_write_other fs fileout filein _ (Ne.symm hne)
  | inr hne => exact absurd rfl hne

/-- Witness for the amended C7: a successful call with distinct paths
leaves the input file's content unchanged. -/
theorem resizeImage_input_preserved_witness :
    fsLookup (runResize sampleFS "in.jpeg" "out/o.jpeg" 480 659).1
        "in.jpeg" = fsLookup sampleFS "in.jpeg" :=
resizeImage_input_preserved sampleFS "in.jpeg" "out/o.jpeg" 480 659
  (.inl (by decide))

/-- C9: the handle trace of every call is one of three well-scoped shapes
— empty, input handle acquired then released, or input handle acquired and
released followed by output handle acquired and released — and every path
whose handle appears in the trace is the call's own input or output path.
In particular each acquired handle is released before the call returns, on
every exit path. -/
theorem resizeEvents_scoped (fs : FS) (filein fileout : String)
    (width height : Int) :
    (resizeEvents fs filein fileout width height = [] ∨
     resizeEvents fs filein fileout width height =
       [.acq filein, .rel filein] ∨
     resizeEvents fs filein fileout width height =
       [.acq filein, .rel filein, .acq fileout, .rel fileout]) ∧
    (∀ p, (HEvent.acq p ∈ resizeEvents fs filein fileout width height ∨
        HEvent.rel p ∈ resizeEvents fs filein fileout width height) →
      p = filein ∨ p = fileout) := by
have hshape : resizeEvents fs filein fileout width height = [] ∨
    resizeEvents fs filein fileout width height =
      [.acq filein, .rel filein] ∨
    resizeEvents fs filein fileout width height =
      [.acq filein, .rel filein, .acq fileout, .rel fileout] := by
  unfold resizeEvents
  split
  · exact .inl rfl
  · exact .inr (.inl rfl)
  · split
    · exact .inr (.inl rfl)
    · split
      · split
        · exact .inr (.inr rfl)
        · exact .inr (.inl rfl)
      · exact .inr (.inl rfl)
refine ⟨hshape, ?_⟩
intro p hp
rcases hshape with h | h | h <;> rw [h] at hp <;> simp at hp <;> tauto

/-- Witness for C9: on a fully successful call the trace is exactly the
four scoped events, and the inner implication applies at the input path. -/
theorem resizeEvents_scoped_witness :
    resizeEvents sampleFS "in.jpeg" "out/o.jpeg" 480 659 =
      [.acq "in.jpeg", .rel "in.jpeg",
        .acq "out/o.jpeg", .rel "out/o.jpeg"] ∧
    ("in.jpeg" = "in.jpeg" ∨ "in.jpeg" = "out/o.jpeg") :=
⟨by decide,
  (resizeEvents_scoped sampleFS "in.jpeg" "out/o.jpeg" 480 659).2
    "in.jpeg" (.inl (by decide))⟩

/-- C10: nothing relates `fileout` to `filein`; with `fileout = filein` a
call meeting the success preconditions succeeds and writes the resized
image over the input path, so the path now stores the resized image
instead of its original content. -/
theorem resizeImage_overwrites_aliased_input (fs : FS) (p : String)
    (width height : Int) (bm : Bitmap)
    (hfile : fsLookup fs p = some (.image bm))
    (hw : 0 < width) (hh : 0 < height)
    (hext : strLower (extension p) ∈ supportedExt)
    (hdir : parentDir p ∈ fs.dirs) :
    ResizeImage fs p p width height = .ok (fsWrite fs p (.image
      ⟨width.toNat, height.toNat,
        .resampled .antialias width.toNat height.toNat bm.data⟩)) ∧
    fsLookup (fsWrite fs p (.image
        ⟨width.toNat, height.toNat,
          .resampled .antialias width.toNat height.toNat bm.data⟩)) p =
      some (.image ⟨width.toNat, height.toNat,
        .resampled .antialias width.toNat height.toNat bm.data⟩) :=
⟨ResizeImage_ok_of fs p p width height bm hfile hw hh hext hdir,
  fsLookup_write_self _ _ _⟩

/-- Witness for C10: resizing `a.jpeg` onto itself succeeds and the
original content at `a.jpeg` is lost (the stored content changes). -/
theorem resizeImage_overwrites_aliased_input_witness :
    (ResizeImage aliasFS "a.jpeg" "a.jpeg" 1 1 = .ok (fsWrite aliasFS
        "a.jpeg" (.image ⟨1, 1, .resampled .antialias 1 1
          (Bitmap.mk 2 2 (.source [[1, 2], [3, 4]])).data⟩)) ∧
      fsLookup (fsWrite aliasFS "a.jpeg" (.image ⟨1, 1,
          .resampled .antialias 1 1
            (Bitmap.mk 2 2 (.source [[1, 2], [3, 4]])).data⟩)) "a.jpeg" =
        some (.image ⟨1, 1, .resampled .antialias 1 1
          (Bitmap.mk 2 2 (.source [[1, 2], [3, 4]])).data⟩)) ∧
    fsLookup (fsWrite aliasFS "a.jpeg" (.image ⟨1, 1,
        .resampled .antialias 1 1
          (Bitmap.mk 2 2 (.source [[1, 2], [3, 4]])).data⟩)) "a.jpeg" ≠
      fsLookup aliasFS "a.jpeg" :=
⟨resizeImage_overwrites_aliased_input aliasFS "a.jpeg" 1 1
    (Bitmap.mk 2 2 (.source [[1, 2], [3, 4]])) (by decide) (by decide)
    (by decide) (by decide) (by decide),
  by decide⟩
